import Mathlib

set_option maxHeartbeats 1000000

/-!
Verification of the ADB-over-TCP connexion layer (adb_tcp_connexion.rs,
commands/push.rs, commands/sync.rs) against its specification.

Byte streams are modelled as finite lists of natural numbers below 256.
Reads from the TCP socket become explicit consumption of a prefix of a
reply list; writes are collected into a list of written bytes.
-/

namespace AdbClient

/-- UTF-8 encoding of a single character as byte values; mirrors the byte
view that Rust `str` exposes. -/
def utf8Char (c : Char) : List Nat :=
  let n := c.toNat
  if n < 128 then [n]
  else if n < 2048 then [192 + n / 64, 128 + n % 64]
  else if n < 65536 then [224 + n / 4096, 128 + n / 64 % 64, 128 + n % 64]
  else [240 + n / 262144, 128 + n / 4096 % 64, 128 + n / 64 % 64, 128 + n % 64]

/-- The UTF-8 bytes of a string; `(strBytes s).length` models Rust's `s.len()`. -/
def strBytes (s : String) : List Nat :=
  (s.data.map utf8Char).flatten

/-- Whether a byte is a UTF-8 continuation byte (0x80..0xBF). -/
def isCont (b : Nat) : Bool := 128 ≤ b && b ≤ 191

/-- UTF-8 validity of a byte sequence: models `str::from_utf8` /
`String::from_utf8` succeeding on exactly these inputs. -/
def utf8Valid : List Nat → Bool
  | [] => true
  | b :: rest =>
    if b < 128 then utf8Valid rest
    else if b < 194 then false
    else if b ≤ 223 then
      match rest with
      | c1 :: r => isCont c1 && utf8Valid r
      | [] => false
    else if b ≤ 239 then
      match rest with
      | c1 :: c2 :: r =>
        (if b = 224 then 160 ≤ c1 && c1 ≤ 191
         else if b = 237 then 128 ≤ c1 && c1 ≤ 159
         else isCont c1) && isCont c2 && utf8Valid r
      | _ => false
    else if b ≤ 244 then
      match rest with
      | c1 :: c2 :: c3 :: r =>
        (if b = 240 then 144 ≤ c1 && c1 ≤ 191
         else if b = 244 then 128 ≤ c1 && c1 ≤ 143
         else isCont c1) && isCont c2 && isCont c3 && utf8Valid r
      | _ => false
    else false

/-- Lowercase hex digit character code for a value below 16 (the digits used
by Rust's `{:x}` formatting). -/
def hexDigitChar (d : Nat) : Nat := if d < 10 then 48 + d else 87 + d

/-- Little-endian hex digit values of `n`, with explicit fuel so the
recursion is structural; any fuel at least `n` gives the true digit list. -/
def hexDigitsRevF : Nat → Nat → List Nat
  | 0, _ => []
  | fuel + 1, n => if n = 0 then [] else n % 16 :: hexDigitsRevF fuel (n / 16)

/-- The character codes Rust's `{:x}` produces for `n`: lowercase hex digits,
no leading zeros, and 0 printed as a single 0 digit. -/
def rustHexChars (n : Nat) : List Nat :=
  if n = 0 then [48] else ((hexDigitsRevF n n).reverse).map hexDigitChar

/-- Models `format ("{:04x}", n)`: the hex digits of `n` left-padded with the
0 digit to width 4 (wider than 4 digits is printed unpadded, as in Rust). -/
def hex4 (n : Nat) : List Nat :=
  List.replicate (4 - (rustHexChars n).length) 48 ++ rustHexChars n

/-- Numeric value of an ASCII hex digit; `u32::from_str_radix` with radix 16
accepts 0-9, lowercase a-f and uppercase A-F. -/
def hexVal (c : Nat) : Option Nat :=
  if 48 ≤ c ∧ c ≤ 57 then some (c - 48)
  else if 97 ≤ c ∧ c ≤ 102 then some (c - 87)
  else if 65 ≤ c ∧ c ≤ 70 then some (c - 55)
  else none

/-- Accumulating hex parser over a digit run; fails on the first non-digit. -/
def parseHexCore (acc : Nat) : List Nat → Option Nat
  | [] => some acc
  | c :: cs =>
    match hexVal c with
    | some d => parseHexCore (16 * acc + d) cs
    | none => none

/-- Models `u32::from_str_radix (s, 16)` on the bytes of `s`: an optional
leading plus sign then a nonempty run of hex digits. Overflow cannot occur
for the 4-byte fields this protocol parses, so it is not modelled. -/
def rustHexParse (bs : List Nat) : Option Nat :=
  match bs with
  | [] => none
  | b :: rest =>
    if b = 43 then
      if rest.isEmpty then none else parseHexCore 0 rest
    else parseHexCore 0 (b :: rest)

/-- LittleEndian::write_u32: the four little-endian bytes of `n` as a u32,
truncating exactly as Rust's `as u32` cast does. -/
def le32 (n : Nat) : List Nat :=
  [n % 256, n / 256 % 256, n / 65536 % 256, n / 16777216 % 256]

/-- LittleEndian::read_u32 of a four-byte buffer. -/
def le32dec (bs : List Nat) : Nat :=
  match bs with
  | [a, b, c, d] => a + 256 * b + 65536 * c + 16777216 * d
  | _ => 0

/-- Modelled from the spec: the crate error type `RustADBError` lives in a
module that is not under src/. Variants needed by the connexion layer;
`adbRequestFailed` is the spec's `RequestRejected` and carries the server
message bytes verbatim, `transport` covers short reads (`read_exact`
hitting EOF), `conversion` covers malformed length fields and invalid
UTF-8, `metadata` covers unavailable local file metadata. -/
inductive RustADBError
  | transport
  | conversion
  | adbRequestFailed (msg : List Nat)
  | unknownStatus
  | metadata
deriving DecidableEq

/-- Modelled from the spec: the models module's `AdbCommand` (host command
vocabulary) is not under src/; only the variants the connexion layer and
push_command use are needed. -/
inductive AdbCommand
  | transportAny
  | transportSerial (serial : String)
  | sync

/-- Modelled from the spec: the Display impl mapping each host command to
its canonical ASCII token (spec section 6 gives "host:transport-any" and
"sync:"; select-by-serial uses the transport token with the serial). -/
def AdbCommand.wire : AdbCommand → String
  | .transportAny => "host:transport-any"
  | .transportSerial s => "host:transport:" ++ s
  | .sync => "sync:"

/-- Modelled from the spec: `RequestStatus` is the enumeration Okay | Fail. -/
inductive AdbRequestStatus
  | okay
  | fail
deriving DecidableEq

/-- Modelled from the spec: `AdbRequestStatus::from_str` after
`str::from_utf8`, decoding exactly the 4 ASCII bytes "OKAY" or "FAIL";
any other value is a decode error, not a third status (invalid UTF-8 and
an unrecognized word are both errors; they are kept apart here). -/
def readStatusWord (b : List Nat) : Except RustADBError AdbRequestStatus :=
  if b = strBytes "OKAY" then .ok .okay
  else if b = strBytes "FAIL" then .ok .fail
  else if utf8Valid b then .error .unknownStatus
  else .error .conversion

/-- Embedding of `get_body_length` (adb_tcp_connexion.rs lines 216-221):
read four bytes and parse them as hex; returns the decoded length and the
rest of the stream. A short read is a transport error; a parse or UTF-8
failure is a conversion error. -/
def get_body_length (s : List Nat) : Except RustADBError (Nat × List Nat) :=
  if 4 ≤ s.length then
    match rustHexParse (s.take 4) with
    | some v => .ok (v, s.drop 4)
    | none => .error .conversion
  else .error .transport

/-- Result of one host request exchange: the bytes written to the socket,
the returned Result, and the reply bytes left unconsumed on the stream. -/
structure HostExch where
  written : List Nat
  result : Except RustADBError Unit
  remaining : List Nat

/-- The frame `send_adb_request` writes: `format ("{:04x}{}", s.len(), s)`
for the command's canonical string (adb_tcp_connexion.rs line 72). -/
def hostFrame (cmd : AdbCommand) : List Nat :=
  hex4 (strBytes cmd.wire).length ++ strBytes cmd.wire

/-- Fail branch of `send_adb_request` (lines 81-96): read a hex length via
`get_body_length`, then exactly that many body bytes, and fail with the
decoded message; a non-UTF-8 body is a conversion error. -/
def processFailBody (rest : List Nat) : Except RustADBError Unit × List Nat :=
  match get_body_length rest with
  | .error e => (.error e, [])
  | .ok (len, rest2) =>
    if len ≤ rest2.length then
      if utf8Valid (rest2.take len) then
        (.error (.adbRequestFailed (rest2.take len)), rest2.drop len)
      else (.error .conversion, rest2.drop len)
    else (.error .transport, [])

/-- Read side of `send_adb_request` (lines 76-98): read the 4-byte status
word; on Okay succeed reading nothing further; on Fail read the error body.
Returns the result and the unconsumed rest of the reply. -/
def processHostReply (reply : List Nat) : Except RustADBError Unit × List Nat :=
  if 4 ≤ reply.length then
    match readStatusWord (reply.take 4) with
    | .error e => (.error e, reply.drop 4)
    | .ok .okay => (.ok (), reply.drop 4)
    | .ok .fail => processFailBody (reply.drop 4)
  else (.error .transport, [])

/-- Embedding of `send_adb_request` (adb_tcp_connexion.rs lines 70-99):
write the hex-length-prefixed command frame, then process the reply. -/
def send_adb_request (cmd : AdbCommand) (reply : List Nat) : HostExch :=
  let pr := processHostReply reply
  ⟨hostFrame cmd, pr.1, pr.2⟩

/-- A byte is a lowercase ASCII hex digit (0-9 or a-f). -/
def isLowerHexDigit (c : Nat) : Prop :=
  (48 ≤ c ∧ c ≤ 57) ∨ (97 ≤ c ∧ c ≤ 102)

instance : DecidablePred isLowerHexDigit := fun c => by
  unfold isLowerHexDigit
  infer_instance

lemma hexVal_hexDigitChar : ∀ d, d < 16 → hexVal (hexDigitChar d) = some d := by
  decide

lemma isLowerHexDigit_hexDigitChar : ∀ d, d < 16 → isLowerHexDigit (hexDigitChar d) := by
  decide

lemma hexDigitsRevF_mem_lt (fuel : Nat) :
    ∀ n d, d ∈ hexDigitsRevF fuel n → d < 16 := by
  induction fuel with
  | zero => intro n d h; simp [hexDigitsRevF] at h
  | succ fuel ih =>
    intro n d h
    simp only [hexDigitsRevF] at h
    split at h
    · simp at h
    · rcases List.mem_cons.mp h with h1 | h2
      · subst h1; exact Nat.mod_lt _ (by norm_num)
      · exact ih _ _ h2

lemma hexDigitsRevF_foldl (fuel : Nat) :
    ∀ n acc, n ≤ fuel →
      ((hexDigitsRevF fuel n).reverse).foldl (fun a d => 16 * a + d) acc
        = acc * 16 ^ (hexDigitsRevF fuel n).length + n := by
  induction fuel with
  | zero =>
    intro n acc h
    interval_cases n
    simp [hexDigitsRevF]
  | succ fuel ih =>
    intro n acc h
    by_cases h0 : n = 0
    · subst h0; simp [hexDigitsRevF]
    · have hrec : n / 16 ≤ fuel := by
        have : n / 16 < n := Nat.div_lt_self (Nat.pos_of_ne_zero h0) (by norm_num)
        omega
      simp only [hexDigitsRevF, if_neg h0, List.reverse_cons, List.foldl_append,
        List.length_cons]
      rw [ih (n / 16) acc hrec]
      simp only [List.foldl_cons, List.foldl_nil]
      rw [pow_succ]
      have hmul : acc * (16 ^ (hexDigitsRevF fuel (n / 16)).length * 16)
          = acc * 16 ^ (hexDigitsRevF fuel (n / 16)).length * 16 := by ring
      rw [hmul]
      generalize acc * 16 ^ (hexDigitsRevF fuel (n / 16)).length = A
      omega

lemma hexDigitsRevF_length_le (fuel : Nat) :
    ∀ n k, n ≤ fuel → n < 16 ^ k → (hexDigitsRevF fuel n).length ≤ k := by
  induction fuel with
  | zero => intro n k h hk; simp [hexDigitsRevF]
  | succ fuel ih =>
    intro n k h hk
    by_cases h0 : n = 0
    · subst h0; simp [hexDigitsRevF]
    · cases k with
      | zero => simp at hk; omega
      | succ k =>
        simp only [hexDigitsRevF, if_neg h0, List.length_cons]
        have h1 : n / 16 < 16 ^ k := by
          rw [Nat.div_lt_iff_lt_mul (by norm_num : (0 : Nat) < 16)]
          calc n < 16 ^ (k + 1) := hk
            _ = 16 ^ k * 16 := by rw [pow_succ]
        have h2 : n / 16 ≤ fuel := by
          have : n / 16 < n := Nat.div_lt_self (Nat.pos_of_ne_zero h0) (by norm_num)
          omega
        have := ih (n / 16) k h2 h1
        omega

lemma parseHexCore_map (ds : List Nat) :
    ∀ acc, (∀ d ∈ ds, d < 16) →
      parseHexCore acc (ds.map hexDigitChar)
        = some (ds.foldl (fun a d => 16 * a + d) acc) := by
  induction ds with
  | nil => intro acc h; simp [parseHexCore]
  | cons d ds ih =>
    intro acc h
    have hd : d < 16 := h d (List.mem_cons_self d ds)
    rw [List.map_cons, List.foldl_cons]
    show parseHexCore acc (hexDigitChar d :: ds.map hexDigitChar) = _
    rw [parseHexCore, hexVal_hexDigitChar d hd]
    exact ih (16 * acc + d) (fun x hx => h x (List.mem_cons_of_mem _ hx))

lemma parseHexCore_replicate_zero (k : Nat) (L : List Nat) :
    parseHexCore 0 (List.replicate k 48 ++ L) = parseHexCore 0 L := by
  induction k with
  | zero => simp
  | succ k ih =>
    rw [List.replicate_succ, List.cons_append, parseHexCore]
    have h48 : hexVal 48 = some 0 := rfl
    rw [h48]
    simpa using ih

lemma rustHexChars_parse (n : Nat) :
    parseHexCore 0 (rustHexChars n) = some n := by
  by_cases h0 : n = 0
  · subst h0; rfl
  · rw [rustHexChars, if_neg h0]
    rw [parseHexCore_map _ 0 (fun d hd => hexDigitsRevF_mem_lt n n d (List.mem_reverse.mp hd))]
    rw [hexDigitsRevF_foldl n n 0 (le_refl n)]
    simp

lemma rustHexChars_mem (n : Nat) :
    ∀ c ∈ rustHexChars n, isLowerHexDigit c := by
  intro c hc
  by_cases h0 : n = 0
  · subst h0
    simp [rustHexChars] at hc
    subst hc
    exact Or.inl (by omega)
  · rw [rustHexChars, if_neg h0] at hc
    rcases List.mem_map.mp hc with ⟨d, hd, rfl⟩
    exact isLowerHexDigit_hexDigitChar d
      (hexDigitsRevF_mem_lt n n d (List.mem_reverse.mp hd))

lemma rustHexChars_length_pos (n : Nat) : 0 < (rustHexChars n).length := by
  by_cases h0 : n = 0
  · subst h0; simp [rustHexChars]
  · rw [rustHexChars, if_neg h0]
    simp only [List.length_map, List.length_reverse]
    rcases n with _ | m
    · exact absurd rfl h0
    · rw [hexDigitsRevF]
      simp

lemma rustHexChars_length_le (n : Nat) (h : n < 65536) :
    (rustHexChars n).length ≤ 4 := by
  by_cases h0 : n = 0
  · subst h0; simp [rustHexChars]
  · rw [rustHexChars, if_neg h0]
    simp only [List.length_map, List.length_reverse]
    exact hexDigitsRevF_length_le n n 4 (le_refl n) (by norm_num; exact h)

lemma hex4_length (n : Nat) (h : n < 65536) : (hex4 n).length = 4 := by
  have h1 := rustHexChars_length_le n h
  have h2 := rustHexChars_length_pos n
  simp only [hex4, List.length_append, List.length_replicate]
  omega

lemma hex4_mem (n : Nat) : ∀ c ∈ hex4 n, isLowerHexDigit c := by
  intro c hc
  rcases List.mem_append.mp hc with h | h
  · have := List.eq_of_mem_replicate h
    subst this
    exact Or.inl (by omega)
  · exact rustHexChars_mem n c h

lemma rustHexParse_hex4 (n : Nat) (h : n < 65536) :
    rustHexParse (hex4 n) = some n := by
  have hparse : parseHexCore 0 (hex4 n) = some n := by
    rw [hex4, parseHexCore_replicate_zero, rustHexChars_parse]
  rcases hcons : hex4 n with _ | ⟨b, rest⟩
  · have := hex4_length n h
    rw [hcons] at this
    simp at this
  · have hb : isLowerHexDigit b := by
      apply hex4_mem n
      rw [hcons]
      exact List.mem_cons_self b rest
    have hb43 : b ≠ 43 := by
      rcases hb with ⟨h1, _⟩ | ⟨h1, _⟩ <;> omega
    rw [rustHexParse, if_neg hb43, ← hcons, hparse]

lemma processHostReply_okay (extra : List Nat) :
    processHostReply (strBytes "OKAY" ++ extra) = (.ok (), extra) := by
  have hOK : strBytes "OKAY" = [79, 75, 65, 89] := rfl
  rw [hOK]
  have hlen : (4 : Nat) ≤ ([79, 75, 65, 89] ++ extra).length := by
    simp
  rw [processHostReply, if_pos hlen]
  rw [List.take_left' (by rfl), List.drop_left' (by rfl)]
  rfl

lemma processFailBody_encoded (msg extra : List Nat)
    (hlen : msg.length < 65536) (hutf : utf8Valid msg = true) :
    processFailBody (hex4 msg.length ++ (msg ++ extra))
      = (.error (.adbRequestFailed msg), extra) := by
  have hbody : get_body_length (hex4 msg.length ++ (msg ++ extra))
      = .ok (msg.length, msg ++ extra) := by
    have h4b : (4 : Nat) ≤ (hex4 msg.length ++ (msg ++ extra)).length := by
      simp [hex4_length msg.length hlen]
    rw [get_body_length, if_pos h4b]
    rw [List.take_left' (hex4_length msg.length hlen)]
    rw [rustHexParse_hex4 msg.length hlen]
    rw [List.drop_left' (hex4_length msg.length hlen)]
  have hle : msg.length ≤ (msg ++ extra).length := by simp
  simp only [processFailBody, hbody]
  rw [List.take_left, List.drop_left]
  rw [if_pos hle, hutf]
  simp

lemma processHostReply_fail (msg extra : List Nat)
    (hlen : msg.length < 65536) (hutf : utf8Valid msg = true) :
    processHostReply (strBytes "FAIL" ++ (hex4 msg.length ++ (msg ++ extra)))
      = (.error (.adbRequestFailed msg), extra) := by
  have hF : strBytes "FAIL" = [70, 65, 73, 76] := rfl
  rw [hF]
  have h4 : (4 : Nat) ≤ ([70, 65, 73, 76] ++ (hex4 msg.length ++ (msg ++ extra))).length := by
    simp
  rw [processHostReply, if_pos h4]
  rw [List.take_left' (by rfl), List.drop_left' (by rfl)]
  show processFailBody (hex4 msg.length ++ (msg ++ extra)) = _
  exact processFailBody_encoded msg extra hlen hutf

/-- C1: for every host command whose canonical string has byte length at
most 9999, send_adb_request writes the frame consisting of the payload's
byte length as exactly 4 lowercase hex digits followed by the command's
canonical ASCII string; the first 4 bytes, parsed as hex, equal the byte
length of the remaining bytes. -/
theorem C1_host_frame_hex_length (cmd : AdbCommand) (reply : List Nat)
    (h : (strBytes cmd.wire).length ≤ 9999) :
    (send_adb_request cmd reply).written
        = hex4 (strBytes cmd.wire).length ++ strBytes cmd.wire
    ∧ ((send_adb_request cmd reply).written.take 4).length = 4
    ∧ (∀ c ∈ (send_adb_request cmd reply).written.take 4, isLowerHexDigit c)
    ∧ rustHexParse ((send_adb_request cmd reply).written.take 4)
        = some ((send_adb_request cmd reply).written.drop 4).length := by
  have hlt : (strBytes cmd.wire).length < 65536 := by omega
  have hw : (send_adb_request cmd reply).written
      = hex4 (strBytes cmd.wire).length ++ strBytes cmd.wire := rfl
  have htake : (send_adb_request cmd reply).written.take 4
      = hex4 (strBytes cmd.wire).length := by
    rw [hw, List.take_left' (hex4_length _ hlt)]
  have hdrop : (send_adb_request cmd reply).written.drop 4 = strBytes cmd.wire := by
    rw [hw, List.drop_left' (hex4_length _ hlt)]
  refine ⟨hw, ?_, ?_, ?_⟩
  · rw [htake]; exact hex4_length _ hlt
  · rw [htake]; exact hex4_mem _
  · rw [htake, hdrop]; exact rustHexParse_hex4 _ hlt

/-- Witness for C1 at the sync host command with an empty reply stream. -/
theorem C1_witness :
    (strBytes AdbCommand.sync.wire).length ≤ 9999
    ∧ ((send_adb_request .sync []).written
          = hex4 (strBytes AdbCommand.sync.wire).length ++ strBytes AdbCommand.sync.wire
       ∧ ((send_adb_request .sync []).written.take 4).length = 4
       ∧ (∀ c ∈ (send_adb_request .sync []).written.take 4, isLowerHexDigit c)
       ∧ rustHexParse ((send_adb_request .sync []).written.take 4)
           = some ((send_adb_request .sync []).written.drop 4).length) :=
  ⟨by decide, C1_host_frame_hex_length .sync [] (by decide)⟩

/-- C2: when the server replies FAIL followed by a 4-hex-digit length and
that many UTF-8 message bytes, send_adb_request fails with the server's
message verbatim and consumes exactly 4 + 4 + len bytes of the reply,
leaving any following bytes unread; the empty-message case is the
instance msg = []. -/
theorem C2_fail_reads_exact_body (cmd : AdbCommand) (msg extra : List Nat)
    (hlen : msg.length < 65536) (hutf : utf8Valid msg = true) :
    send_adb_request cmd (strBytes "FAIL" ++ (hex4 msg.length ++ (msg ++ extra)))
      = ⟨hostFrame cmd, .error (.adbRequestFailed msg), extra⟩ := by
  show (⟨hostFrame cmd,
    (processHostReply (strBytes "FAIL" ++ (hex4 msg.length ++ (msg ++ extra)))).1,
    (processHostReply (strBytes "FAIL" ++ (hex4 msg.length ++ (msg ++ extra)))).2⟩ : HostExch) = _
  rw [processHostReply_fail msg extra hlen hutf]

/-- Witness for C2: the crafted 13-byte reply FAIL 0005 error followed by a
sentinel byte 0x42; the sentinel is left unread. -/
theorem C2_witness :
    ((strBytes "error").length < 65536 ∧ utf8Valid (strBytes "error") = true)
    ∧ send_adb_request .sync
        (strBytes "FAIL" ++ (hex4 (strBytes "error").length ++ (strBytes "error" ++ [66])))
        = ⟨hostFrame .sync, .error (.adbRequestFailed (strBytes "error")), [66]⟩ :=
  ⟨⟨by decide, by decide⟩,
    C2_fail_reads_exact_body .sync (strBytes "error") [66] (by decide) (by decide)⟩

/-- C3: when the server replies OKAY, send_adb_request returns success and
consumes exactly the 4 status bytes, leaving every further byte unread. -/
theorem C3_okay_consumes_four (cmd : AdbCommand) (extra : List Nat) :
    send_adb_request cmd (strBytes "OKAY" ++ extra)
      = ⟨hostFrame cmd, .ok (), extra⟩ := by
  show (⟨hostFrame cmd,
    (processHostReply (strBytes "OKAY" ++ extra)).1,
    (processHostReply (strBytes "OKAY" ++ extra)).2⟩ : HostExch) = _
  rw [processHostReply_okay extra]

/-- Witness for C3 at the sync command with a sentinel byte after OKAY. -/
theorem C3_witness :
    send_adb_request .sync (strBytes "OKAY" ++ [66])
      = ⟨hostFrame .sync, .ok (), [66]⟩ :=
  C3_okay_consumes_four .sync [66]

/-- Chunks of the local byte source as handle_send_command's read loop
produces them (lines 183-194): successive chunks of up to 65536 bytes
until the source is exhausted. Explicit fuel keeps the recursion
structural; any fuel at least the list length gives the true chunks. -/
def chunkListF : Nat → List Nat → List (List Nat)
  | 0, _ => []
  | fuel + 1, l =>
    if l.isEmpty then [] else l.take 65536 :: chunkListF fuel (l.drop 65536)

/-- The chunk sequence of a byte source under a 64 KiB read buffer. -/
def chunkList (l : List Nat) : List (List Nat) := chunkListF l.length l

/-- One DATA frame (lines 189-193): tag, little-endian chunk length, chunk. -/
def dataFrame (c : List Nat) : List Nat := strBytes "DATA" ++ le32 c.length ++ c

/-- The payload section of SEND: one DATA frame per chunk, in order. -/
def dataFrames (l : List Nat) : List Nat := ((chunkList l).map dataFrame).flatten

/-- Lengths of the chunks of a source of length n, by the same recursion. -/
def lenChunksF : Nat → Nat → List Nat
  | 0, _ => []
  | fuel + 1, n => if n = 0 then [] else min n 65536 :: lenChunksF fuel (n - 65536)

lemma chunkListF_props (fuel : Nat) :
    ∀ l : List Nat, l.length ≤ fuel →
      (∀ c ∈ chunkListF fuel l, c ≠ [] ∧ c.length ≤ 65536)
      ∧ (chunkListF fuel l).flatten = l := by
  induction fuel with
  | zero =>
    intro l h
    have hl : l = [] := List.eq_nil_of_length_eq_zero (by omega)
    subst hl
    simp [chunkListF]
  | succ fuel ih =>
    intro l h
    by_cases he : l.isEmpty
    · have hl : l = [] := by simpa using he
      subst hl
      simp [chunkListF]
    · have hne : l ≠ [] := by simpa using he
      have hpos : 0 < l.length := List.length_pos.mpr hne
      have hdrop : (l.drop 65536).length ≤ fuel := by
        simp only [List.length_drop]
        omega
      obtain ⟨ihmem, ihflat⟩ := ih (l.drop 65536) hdrop
      rw [chunkListF, if_neg he]
      constructor
      · intro c hc
        rcases List.mem_cons.mp hc with rfl | hc2
        · constructor
          · intro hcon
            have := congrArg List.length hcon
            simp only [List.length_take, List.length_nil] at this
            omega
          · simp only [List.length_take]
            omega
        · exact ihmem c hc2
      · rw [List.flatten_cons, ihflat, List.take_append_drop]

lemma chunkList_mem (l : List Nat) :
    ∀ c ∈ chunkList l, c ≠ [] ∧ c.length ≤ 65536 :=
  (chunkListF_props l.length l (le_refl _)).1

lemma chunkList_flatten (l : List Nat) : (chunkList l).flatten = l :=
  (chunkListF_props l.length l (le_refl _)).2

lemma chunkListF_map_length (fuel : Nat) :
    ∀ l : List Nat, l.length ≤ fuel →
      (chunkListF fuel l).map List.length = lenChunksF fuel l.length := by
  induction fuel with
  | zero => intro l h; simp [chunkListF, lenChunksF]
  | succ fuel ih =>
    intro l h
    by_cases he : l.isEmpty
    · have hl : l = [] := by simpa using he
      subst hl
      simp [chunkListF, lenChunksF]
    · have hne : l ≠ [] := by simpa using he
      have h0 : l.length ≠ 0 := fun hc => hne (List.eq_nil_of_length_eq_zero hc)
      rw [chunkListF, if_neg he, lenChunksF, if_neg h0]
      simp only [List.map_cons, List.length_take]
      rw [ih (l.drop 65536) (by simp only [List.length_drop]; omega)]
      simp only [List.length_drop]
      congr 1
      omega

/-- Rust `Path::file_name`: groups of a character list split on the path
separator. -/
def splitOnSlash : List Char → List (List Char)
  | [] => [[]]
  | c :: cs =>
    if c = '/' then [] :: splitOnSlash cs
    else
      match splitOnSlash cs with
      | [] => [[c]]
      | g :: gs => (c :: g) :: gs

/-- Models `Path::new(p).file_name()`: the last normal component of the
path (empty components and lone dots are skipped), or none when the path
has no normal component or ends in a parent-directory component. The
source calls `.unwrap()` on this, panicking on none. -/
def file_name (p : String) : Option String :=
  match ((splitOnSlash p.data).filter
      (fun c => decide (c ≠ [] ∧ c ≠ ['.']))).getLast? with
  | none => none
  | some c => if c = ['.', '.'] then none else some (String.mk c)

/-- Models `PathBuf::push` of a relative file name onto a base path: the
name is appended behind a separator unless the base is empty or already
ends with one (names produced by file_name never contain a separator). -/
def pathPush (base : String) (name : String) : String :=
  if base.data = [] then name
  else if base.data.getLast? = some '/' then base ++ name
  else base ++ "/" ++ name

/-- The composed wire path handle_send_command sends (lines 166-168): the
local path's file name pushed onto the remote path, then the literal
suffix ",0777"; none models the unwrap panic when file_name is none. -/
def wire_path (fromPath toPath : String) : Option String :=
  (file_name fromPath).map (fun n => pathPush toPath n ++ ",0777")

/-- Embedding of lines 198-203: `metadata.modified()?` is modelled by an
optional modified time in whole seconds relative to the Unix epoch (none
when the metadata or the modified time is unavailable, which the source
propagates with the ? operator — the spec's MetadataError).
`duration_since(UNIX_EPOCH)` fails exactly when the time is before the
epoch, upon which the source panics; `as_secs() as u32` truncates. -/
inductive MtimeResult
  | secs (n : Nat)
  | unavailable
  | panicked
deriving DecidableEq

/-- Outcome of the modified-time computation of handle_send_command. -/
def computeLastModified (modified : Option Int) : MtimeResult :=
  match modified with
  | none => .unavailable
  | some t => if t < 0 then .panicked else .secs (t.toNat % 4294967296)

/-- Outcome of a SEND exchange: success, a returned error, or a panic. -/
inductive SendOutcome
  | ok
  | err (e : RustADBError)
  | panicked
deriving DecidableEq

/-- Observable effect of handle_send_command: the bytes written to the
socket before returning or panicking, the outcome, and the reply bytes
left unread. -/
structure SendExec where
  writes : List Nat
  outcome : SendOutcome
  remaining : List Nat

/-- Embedding of handle_send_command (adb_tcp_connexion.rs lines 162-210).
Inputs are the two path arguments, the opened local file's bytes, the
optional modified time, and the server reply stream. The function writes
the 8-byte sync header with the composed path, the DATA chunks, then DONE
and the mtime. It never reads from the reply stream: the source returns
Ok directly after writing, despite its comment expecting an OKAY reply. -/
def sendHeader (w : String) : List Nat :=
  strBytes "SEND" ++ le32 (strBytes w).length ++ strBytes w

/-- Embedding of handle_send_command (adb_tcp_connexion.rs lines 162-210):
writes the sync header with the composed path, the DATA chunks, then DONE
and the mtime; the sendHeader doc above describes lines 170-178. -/
def handle_send_command (fromPath : String) (toPath : String)
    (file : List Nat) (modified : Option Int) (reply : List Nat) : SendExec :=
  match wire_path fromPath toPath with
  | none => ⟨[], .panicked, reply⟩
  | some w =>
    match computeLastModified modified with
    | .panicked => ⟨sendHeader w ++ dataFrames file, .panicked, reply⟩
    | .unavailable => ⟨sendHeader w ++ dataFrames file, .err .metadata, reply⟩
    | .secs n =>
      ⟨sendHeader w ++ dataFrames file ++ strBytes "DONE" ++ le32 n, .ok, reply⟩

lemma wire_path_of_file_name (fromPath toPath n : String)
    (hn : file_name fromPath = some n) :
    wire_path fromPath toPath = some (pathPush toPath n ++ ",0777") := by
  rw [wire_path, hn]
  rfl

lemma length_le32 (n : Nat) : (le32 n).length = 4 := rfl

lemma sendHeader_length (w : String) :
    (sendHeader w).length = 8 + (strBytes w).length := by
  have h4 : (strBytes "SEND").length = 4 := rfl
  simp only [sendHeader, List.length_append, h4, length_le32]

lemma handle_send_writes_ok (fromPath toPath w : String) (file : List Nat)
    (t : Int) (reply : List Nat)
    (hw : wire_path fromPath toPath = some w) (ht : 0 ≤ t) :
    handle_send_command fromPath toPath file (some t) reply
      = ⟨strBytes "SEND" ++ le32 (strBytes w).length ++ strBytes w
          ++ dataFrames file ++ strBytes "DONE" ++ le32 (t.toNat % 4294967296),
         .ok, reply⟩ := by
  have hm : computeLastModified (some t) = .secs (t.toNat % 4294967296) := by
    rw [computeLastModified, if_neg (by omega)]
  simp only [handle_send_command, hw, hm, sendHeader]

/-- C4: the SEND handler writes the file payload as successive DATA frames
(tag, little-endian chunk length, chunk bytes of at most 64 KiB) until the
source is exhausted, never emitting an empty chunk, the chunks reassemble
the source, a 130 KiB source gives exactly the three chunks 64K, 64K, 2K,
and the payload is followed by a single DONE tag and the little-endian
modification time. -/
theorem C4_send_chunking (file : List Nat) (h : file.length = 133120) :
    (chunkList file).map List.length = [65536, 65536, 2048]
    ∧ (∀ d : List Nat, ∀ c ∈ chunkList d, c ≠ [] ∧ c.length ≤ 65536)
    ∧ (∀ d : List Nat, (chunkList d).flatten = d)
    ∧ (∀ d : List Nat,
        dataFrames d = ((chunkList d).map
          (fun c => strBytes "DATA" ++ le32 c.length ++ c)).flatten)
    ∧ (∀ fromPath toPath w reply, ∀ t : Int, wire_path fromPath toPath = some w →
        0 ≤ t →
        (handle_send_command fromPath toPath file (some t) reply).writes
          = strBytes "SEND" ++ le32 (strBytes w).length ++ strBytes w
            ++ dataFrames file ++ strBytes "DONE" ++ le32 (t.toNat % 4294967296)) := by
  refine ⟨?_, ?_, ?_, ?_, ?_⟩
  · rw [chunkList, chunkListF_map_length file.length file (le_refl _), h]
    decide
  · intro d
    exact chunkList_mem d
  · intro d
    exact chunkList_flatten d
  · intro d
    rfl
  · intro fromPath toPath w reply t hw ht
    rw [handle_send_writes_ok fromPath toPath w file t reply hw ht]

/-- Witness for C4 at a concrete 130 KiB zero-filled source and a concrete
path, time and reply. -/
theorem C4_witness :
    (List.replicate 133120 0).length = 133120
    ∧ ((chunkList (List.replicate 133120 0)).map List.length = [65536, 65536, 2048]
       ∧ (∀ d : List Nat, ∀ c ∈ chunkList d, c ≠ [] ∧ c.length ≤ 65536)
       ∧ (∀ d : List Nat, (chunkList d).flatten = d)
       ∧ (∀ d : List Nat,
           dataFrames d = ((chunkList d).map
             (fun c => strBytes "DATA" ++ le32 c.length ++ c)).flatten)
       ∧ (∀ fromPath toPath w reply, ∀ t : Int, wire_path fromPath toPath = some w →
           0 ≤ t →
           (handle_send_command fromPath toPath (List.replicate 133120 0)
               (some t) reply).writes
             = strBytes "SEND" ++ le32 (strBytes w).length ++ strBytes w
               ++ dataFrames (List.replicate 133120 0)
               ++ strBytes "DONE" ++ le32 (t.toNat % 4294967296))) :=
  ⟨List.length_replicate 133120 0,
    C4_send_chunking (List.replicate 133120 0) (List.length_replicate 133120 0)⟩

/-- Formalisation of the path formula the claim asserts for SEND: the raw
remote path, a comma, and the octal file mode taken from the local file's
metadata, with 0777 used only when the metadata is unavailable. -/
def octalDigitsRevF : Nat → Nat → List Nat
  | 0, _ => []
  | fuel + 1, n => if n = 0 then [] else n % 8 :: octalDigitsRevF fuel (n / 8)

/-- Octal rendering of a file mode with a leading zero, as modes are
conventionally written (511 renders as 0777, 420 as 0644). -/
def octalModeString (m : Nat) : String :=
  String.mk ('0' ::
    ((octalDigitsRevF m m).reverse).map (fun d => Char.ofNat (48 + d)))

/-- The wire path the claim describes: remotePath, comma, octal mode from
metadata, defaulting to 0777 only when the metadata is unavailable. -/
def claimedWirePath (toPath : String) (metadataMode : Option Nat) : String :=
  toPath ++ "," ++ octalModeString (metadataMode.getD 511)

/-- C5 counterexample: for local path a.txt and remote path /data the code
composes /data/a.txt,0777 — the local file name is pushed onto the remote
path and the mode suffix is the literal 0777 — which differs from the
claimed remotePath + comma + octal metadata mode both when a metadata mode
(here 0644) is available and when it is unavailable. -/
theorem C5_counterexample :
    wire_path "a.txt" "/data" = some "/data/a.txt,0777"
    ∧ some "/data/a.txt,0777" ≠ some (claimedWirePath "/data" (some 420))
    ∧ some "/data/a.txt,0777" ≠ some (claimedWirePath "/data" none) := by
  refine ⟨?_, ?_, ?_⟩ <;> decide

/-- C5 amended: the path argument actually written is the local path's file
name pushed onto the remote path followed by the literal suffix ,0777 —
independent of any metadata mode — and the little-endian length field of
the initiating 8-byte header equals the byte length of this composed
string (not of the raw remote path). -/
theorem C5_amended (fromPath toPath n : String) (file : List Nat)
    (m : Option Int) (reply : List Nat)
    (hn : file_name fromPath = some n) :
    wire_path fromPath toPath = some (pathPush toPath n ++ ",0777")
    ∧ (handle_send_command fromPath toPath file m reply).writes.take
          (8 + (strBytes (pathPush toPath n ++ ",0777")).length)
        = strBytes "SEND"
          ++ le32 (strBytes (pathPush toPath n ++ ",0777")).length
          ++ strBytes (pathPush toPath n ++ ",0777") := by
  have hw := wire_path_of_file_name fromPath toPath n hn
  refine ⟨hw, ?_⟩
  have hlen := sendHeader_length (pathPush toPath n ++ ",0777")
  rcases hm : computeLastModified m with k | _ | _ <;>
    simp only [handle_send_command, hw, hm] <;>
    simp only [List.append_assoc] <;>
    rw [List.take_left' hlen] <;>
    rfl

/-- C6 evaluation: after uploading, handle_send_command returns success and
consumes no byte of the server reply — even a FAIL status with a
sync-encoded message is left entirely unread, so the terminal status read
the claim describes never happens; in general the handler never reads
from the reply stream. -/
theorem C6_no_terminal_status_read :
    (∀ fromPath toPath file m reply,
        (handle_send_command fromPath toPath file m reply).remaining = reply)
    ∧ (handle_send_command "a.txt" "/data" (strBytes "hi") (some 0)
          (strBytes "FAIL" ++ le32 5 ++ strBytes "error")).outcome = .ok
    ∧ (handle_send_command "a.txt" "/data" (strBytes "hi") (some 0)
          (strBytes "FAIL" ++ le32 5 ++ strBytes "error")).remaining
        = strBytes "FAIL" ++ le32 5 ++ strBytes "error" := by
  refine ⟨?_, rfl, rfl⟩
  intro fromPath toPath file m reply
  rcases hw : wire_path fromPath toPath with _ | w
  · simp [handle_send_command, hw]
  · rcases hm : computeLastModified m with k | _ | _ <;>
      simp [handle_send_command, hw, hm]

/-- C7 counterexample: with the modified time one second before the Unix
epoch the handler panics (the source's explicit panic with SystemTime
before UNIX EPOCH) instead of returning a MetadataError result. -/
theorem C7_counterexample :
    (handle_send_command "a.txt" "/data" [] (some (-1)) []).outcome = .panicked
    ∧ SendOutcome.panicked ≠ .err .metadata := by
  exact ⟨rfl, by decide⟩

/-- C7 amended: when the modified time is unavailable the handler returns
the metadata error result and never fabricates a time; when the time is
representable (at or after the epoch) it succeeds and writes the true
time, truncated to u32, after DONE; but when the time is before the epoch
the handler panics instead of returning an error result. -/
theorem C7_amended (fromPath toPath n : String) (file : List Nat)
    (reply : List Nat) (hn : file_name fromPath = some n) :
    (∀ m : Option Int,
        (handle_send_command fromPath toPath file m reply).outcome = .panicked
          ↔ ∃ t, m = some t ∧ t < 0)
    ∧ (handle_send_command fromPath toPath file none reply).outcome
        = .err .metadata
    ∧ (∀ t : Int, 0 ≤ t →
        (handle_send_command fromPath toPath file (some t) reply).outcome = .ok
        ∧ (handle_send_command fromPath toPath file (some t) reply).writes
          = strBytes "SEND"
            ++ le32 (strBytes (pathPush toPath n ++ ",0777")).length
            ++ strBytes (pathPush toPath n ++ ",0777")
            ++ dataFrames file ++ strBytes "DONE"
            ++ le32 (t.toNat % 4294967296)) := by
  have hw := wire_path_of_file_name fromPath toPath n hn
  refine ⟨?_, ?_, ?_⟩
  · intro m
    rcases m with _ | t
    · simp [handle_send_command, hw, computeLastModified]
    · by_cases ht : t < 0
      · have hm : computeLastModified (some t) = .panicked := by
          rw [computeLastModified, if_pos ht]
        simp only [handle_send_command, hw, hm]
        simp [ht]
      · have hm : computeLastModified (some t)
            = .secs (t.toNat % 4294967296) := by
          rw [computeLastModified, if_neg ht]
        simp only [handle_send_command, hw, hm]
        simp [ht]
  · simp [handle_send_command, hw, computeLastModified]
  · intro t ht
    rw [handle_send_writes_ok fromPath toPath _ file t reply hw ht]
    exact ⟨rfl, rfl⟩

/-- Witness for C7 amended at concrete paths, an empty file and reply. -/
theorem C7_witness :
    file_name "a.txt" = some "a.txt"
    ∧ ((∀ m : Option Int,
          (handle_send_command "a.txt" "/data" [] m []).outcome = .panicked
            ↔ ∃ t, m = some t ∧ t < 0)
       ∧ (handle_send_command "a.txt" "/data" [] none []).outcome
           = .err .metadata
       ∧ (∀ t : Int, 0 ≤ t →
           (handle_send_command "a.txt" "/data" [] (some t) []).outcome = .ok
           ∧ (handle_send_command "a.txt" "/data" [] (some t) []).writes
             = strBytes "SEND"
               ++ le32 (strBytes (pathPush "/data" "a.txt" ++ ",0777")).length
               ++ strBytes (pathPush "/data" "a.txt" ++ ",0777")
               ++ dataFrames [] ++ strBytes "DONE"
               ++ le32 (t.toNat % 4294967296))) :=
  ⟨by decide, C7_amended "a.txt" "/data" "a.txt" [] [] (by decide)⟩

/-- Witness for C5 amended at concrete paths, an empty file and reply. -/
theorem C5_witness :
    file_name "a.txt" = some "a.txt"
    ∧ (wire_path "a.txt" "/data"
          = some (pathPush "/data" "a.txt" ++ ",0777")
       ∧ (handle_send_command "a.txt" "/data" [] none []).writes.take
            (8 + (strBytes (pathPush "/data" "a.txt" ++ ",0777")).length)
          = strBytes "SEND"
            ++ le32 (strBytes (pathPush "/data" "a.txt" ++ ",0777")).length
            ++ strBytes (pathPush "/data" "a.txt" ++ ",0777")) :=
  ⟨by decide, C5_amended "a.txt" "/data" "a.txt" [] none [] (by decide)⟩

/-- A directory entry as the specification's data model defines it; the
name is kept as the raw bytes read from the wire (the source never decodes
it). -/
structure DirectoryEntry where
  fileMode : Nat
  fileSize : Nat
  modTime : Nat
  name : List Nat
deriving DecidableEq

/-- Embedding of the read loop of handle_list_command (lines 130-155), with
explicit fuel for structural recursion: each iteration consumes at least 4
bytes, so fuel equal to the stream length suffices, and exhausted fuel
coincides with read_exact failing at end of stream (a transport error).
Per iteration: read a 4-byte tag; DENT reads the four u32 fields then
nameLen name bytes — the source reads these buffers and discards them (the
struct extraction is a TODO in the source), so the entry list delivered to
the caller stays empty; DONE returns successfully; an invalid-UTF-8 tag is
an error propagated by the ? operator; any other tag is printed and the
loop continues. -/
def handleListLoopF :
    Nat → List Nat → Except RustADBError (List DirectoryEntry × List Nat)
  | 0, _ => .error .transport
  | fuel + 1, s =>
    if 4 ≤ s.length then
      if s.take 4 = strBytes "DENT" then
        if 20 ≤ s.length then
          if 20 + le32dec ((s.drop 16).take 4) ≤ s.length then
            handleListLoopF fuel (s.drop (20 + le32dec ((s.drop 16).take 4)))
          else .error .transport
        else .error .transport
      else if s.take 4 = strBytes "DONE" then .ok ([], s.drop 4)
      else if utf8Valid (s.take 4) then handleListLoopF fuel (s.drop 4)
      else .error .conversion
    else .error .transport

/-- Observable effect of handle_list_command: the header bytes written and
the loop's result (the entries delivered and the unread rest of the
stream). -/
structure ListExec where
  writes : List Nat
  result : Except RustADBError (List DirectoryEntry × List Nat)

/-- Embedding of handle_list_command (adb_tcp_connexion.rs lines 118-156):
write the LIST tag, the little-endian byte length of the path, and the
path, then run the read loop on the reply stream. -/
def handle_list_command (path : String) (reply : List Nat) : ListExec :=
  ⟨strBytes "LIST" ++ le32 (strBytes path).length ++ strBytes path,
   handleListLoopF reply.length reply⟩

/-- Wire encoding of one DENT record as the LIST exchange receives it:
tag, mode, size, mtime, name length (all little-endian u32), name bytes. -/
def encodeDent (e : DirectoryEntry) : List Nat :=
  strBytes "DENT" ++ le32 e.fileMode ++ le32 e.fileSize ++ le32 e.modTime
    ++ le32 e.name.length ++ e.name

lemma handleListLoopF_entries_nil :
    ∀ fuel s es rest, handleListLoopF fuel s = .ok (es, rest) → es = [] := by
  intro fuel
  induction fuel with
  | zero => intro s es rest h; simp [handleListLoopF] at h
  | succ fuel ih =>
    intro s es rest h
    rw [handleListLoopF] at h
    split at h
    · split at h
      · split at h
        · split at h
          · exact ih _ es rest h
          · simp at h
        · simp at h
      · split at h
        · simp only [Except.ok.injEq, Prod.mk.injEq] at h
          exact h.1.symm
        · split at h
          · exact ih _ es rest h
          · simp at h
    · simp at h

/-- C8 evaluation: fed one DENT record (mode 0o100644, size 10, mtime 0,
name test) followed by DONE, the LIST loop consumes the whole stream and
terminates successfully but delivers no DirectoryEntry at all — on every
stream the loop's entry output is empty, because the source reads and
discards every decoded field — so the claimed round-trip yield of the
encoded entries does not happen. -/
theorem C8_list_yields_no_entries :
    (handle_list_command "/data/"
        (encodeDent ⟨0o100644, 10, 0, strBytes "test"⟩ ++ strBytes "DONE")).result
      = .ok ([], [])
    ∧ ([] : List DirectoryEntry) ≠ [⟨0o100644, 10, 0, strBytes "test"⟩]
    ∧ (∀ fuel s es rest, handleListLoopF fuel s = .ok (es, rest) → es = []) :=
  ⟨rfl, by decide, handleListLoopF_entries_nil⟩

/-- A run of n consecutive unknown (but valid-UTF-8) four-byte tags. -/
def unknownBlock : Nat → List Nat
  | 0 => []
  | n + 1 => strBytes "XXXX" ++ unknownBlock n

lemma unknownBlock_length (n : Nat) : (unknownBlock n).length = 4 * n := by
  induction n with
  | zero => simp [unknownBlock]
  | succ n ih =>
    have hx : (strBytes "XXXX").length = 4 := rfl
    rw [unknownBlock, List.length_append, hx, ih]
    omega

lemma listLoop_skip_unknown :
    ∀ (n fuel : Nat) (s : List Nat),
      handleListLoopF (n + fuel) (unknownBlock n ++ s) = handleListLoopF fuel s := by
  intro n
  induction n with
  | zero => intro fuel s; simp [unknownBlock]
  | succ n ih =>
    intro fuel s
    have hx : strBytes "XXXX" = [88, 88, 88, 88] := rfl
    rw [unknownBlock, hx, List.append_assoc]
    have hsucc : n + 1 + fuel = (n + fuel) + 1 := by omega
    rw [hsucc, handleListLoopF]
    have htake : List.take 4 ([88, 88, 88, 88] ++ (unknownBlock n ++ s))
        = [88, 88, 88, 88] := @List.take_left' ℕ [88, 88, 88, 88] _ 4 rfl
    have hdrop : List.drop 4 ([88, 88, 88, 88] ++ (unknownBlock n ++ s))
        = unknownBlock n ++ s := @List.drop_left' ℕ [88, 88, 88, 88] _ 4 rfl
    have h4 : (4 : Nat) ≤ ([88, 88, 88, 88] ++ (unknownBlock n ++ s)).length := by
      simp
    rw [if_pos h4, if_neg (by rw [htake]; decide), if_neg (by rw [htake]; decide),
      if_pos (by rw [htake]; decide), hdrop]
    exact ih fuel s

lemma listLoop_done (fuel : Nat) (rest : List Nat) :
    handleListLoopF (fuel + 1) (strBytes "DONE" ++ rest) = .ok ([], rest) := by
  have hD : strBytes "DONE" = [68, 79, 78, 69] := rfl
  rw [hD, handleListLoopF]
  have htake : List.take 4 ([68, 79, 78, 69] ++ rest) = [68, 79, 78, 69] :=
    @List.take_left' ℕ [68, 79, 78, 69] rest 4 rfl
  have hdrop : List.drop 4 ([68, 79, 78, 69] ++ rest) = rest :=
    @List.drop_left' ℕ [68, 79, 78, 69] rest 4 rfl
  have h4 : (4 : Nat) ≤ ([68, 79, 78, 69] ++ rest).length := by simp
  rw [if_pos h4, if_neg (by rw [htake]; decide), if_pos (by rw [htake]; decide),
    hdrop]

/-- C9: the LIST loop has no bound on consecutive unknown tags: for every
n, a reply of n unknown XXXX tags followed by DONE is processed to
successful completion — each unknown tag is reported and the loop simply
continues — so no maximum unknown-tag streak aborts the command, and the
loop in the model terminates only by stream exhaustion, mirroring the
source looping forever on an unbounded unknown-tag stream. -/
theorem C9_unknown_tag_streak_unbounded :
    (∀ n rest,
        (handle_list_command "/data/"
            (unknownBlock n ++ (strBytes "DONE" ++ rest))).result
          = .ok ([], rest))
    ∧ (handle_list_command "/data/" (unknownBlock 5 ++ strBytes "DONE")).result
        = .ok ([], []) := by
  constructor
  · intro n rest
    show handleListLoopF (unknownBlock n ++ (strBytes "DONE" ++ rest)).length
        (unknownBlock n ++ (strBytes "DONE" ++ rest)) = _
    have hD : (strBytes "DONE").length = 4 := rfl
    have hlen : (unknownBlock n ++ (strBytes "DONE" ++ rest)).length
        = n + (3 * n + 3 + rest.length + 1) := by
      simp [List.length_append, unknownBlock_length, hD]
      omega
    rw [hlen, listLoop_skip_unknown, listLoop_done]
  · rfl

/-- The transport-selection command push_command issues (push.rs 16-22). -/
def transportCommand : Option String → AdbCommand
  | none => .transportAny
  | some s => .transportSerial s

/-- One observable action of push_command: a reconnect of the transport or
a write of a byte sequence to the socket. -/
inductive PushEvent
  | reconnect
  | write (bytes : List Nat)
deriving DecidableEq

/-- Observable effect of push_command: the event sequence, the returned
result, and the unread rest of the reply stream. -/
structure PushExec where
  events : List PushEvent
  result : Except RustADBError Unit
  remaining : List Nat

/-- Embedding of push_command (commands/push.rs lines 8-31): reconnect,
select the transport (by serial when given), enter sync mode, then issue a
sync LIST of /data/. The second and third parameters are the source's
underscore-prefixed _filename and _path: they are never read, and no byte
of the named file is ever opened or transmitted, so the model takes no
file-content input at all. Each request short-circuits on error with the
? operator. -/
def push_command (serial : Option String) (_filename _path : String)
    (reply : List Nat) : PushExec :=
  let e1 := send_adb_request (transportCommand serial) reply
  match e1.result with
  | .error err => ⟨[.reconnect, .write e1.written], .error err, e1.remaining⟩
  | .ok _ =>
    let e2 := send_adb_request .sync e1.remaining
    match e2.result with
    | .error err =>
      ⟨[.reconnect, .write e1.written, .write e2.written], .error err,
       e2.remaining⟩
    | .ok _ =>
      let l := handle_list_command "/data/" e2.remaining
      match l.result with
      | .error err =>
        ⟨[.reconnect, .write e1.written, .write e2.written, .write l.writes],
         .error err, []⟩
      | .ok (_, rest) =>
        ⟨[.reconnect, .write e1.written, .write e2.written, .write l.writes],
         .ok (), rest⟩

lemma send_adb_request_okay (cmd : AdbCommand) (extra : List Nat) :
    send_adb_request cmd (strBytes "OKAY" ++ extra)
      = ⟨hostFrame cmd, .ok (), extra⟩ := by
  show (⟨hostFrame cmd,
    (processHostReply (strBytes "OKAY" ++ extra)).1,
    (processHostReply (strBytes "OKAY" ++ extra)).2⟩ : HostExch) = _
  rw [processHostReply_okay extra]

/-- C10: push_command's observable protocol behavior is independent of its
filename and path arguments: for every serial and reply stream, two
invocations differing only in those arguments produce identical events,
result and remaining stream (no byte derived from the named file is ever
written); and on an accepting reply it reconnects and then writes exactly
the transport-selection frame, the sync frame, and the sync LIST header
for /data/. -/
theorem C10_push_independent_of_file :
    (∀ (serial : Option String) (f1 p1 f2 p2 : String) (reply : List Nat),
        push_command serial f1 p1 reply = push_command serial f2 p2 reply)
    ∧ (∀ (serial : Option String) (f p : String) (rest : List Nat),
        push_command serial f p
            (strBytes "OKAY" ++ (strBytes "OKAY" ++ (strBytes "DONE" ++ rest)))
          = ⟨[.reconnect,
              .write (hostFrame (transportCommand serial)),
              .write (hostFrame .sync),
              .write (strBytes "LIST" ++ le32 (strBytes "/data/").length
                ++ strBytes "/data/")],
             .ok (), rest⟩) := by
  constructor
  · intro serial f1 p1 f2 p2 reply
    rfl
  · intro serial f p rest
    have h1 := send_adb_request_okay (transportCommand serial)
      (strBytes "OKAY" ++ (strBytes "DONE" ++ rest))
    have h2 := send_adb_request_okay AdbCommand.sync (strBytes "DONE" ++ rest)
    have h3 : handleListLoopF (strBytes "DONE" ++ rest).length
        (strBytes "DONE" ++ rest) = .ok ([], rest) := by
      have hD : (strBytes "DONE").length = 4 := rfl
      have hlen : (strBytes "DONE" ++ rest).length = rest.length + 3 + 1 := by
        rw [List.length_append, hD]
        omega
      rw [hlen, listLoop_done]
    simp only [push_command, h1, h2, handle_list_command, h3]

end AdbClient
